import Mathlib

/-!
Verification of the news-notifier pipeline (src/news_notifier.py).

The Python source is shallowly embedded below.  Conventions of the embedding:

* Python strings are Lean `String`s; character-level work is done on `List Char`.
  The source file stores its non-ASCII literals in a (mojibake) codepoint
  sequence; the embedding reproduces those codepoint sequences exactly via
  escape sequences, since only their identity (equality between occurrences)
  matters to the program.
* Python `float` arithmetic on heat scores is modelled with `ℚ`.  Every weight
  in the program is a multiple of 1/10, so the rational computation coincides
  with the decimal value the Python code manipulates, and `round(x, 3)` is
  modelled by rounding to the nearest multiple of 1/1000.
* `datetime` values are modelled by their POSIX timestamp in seconds (`ℚ`);
  an entry's `published` field holds `Option ℚ` - the result of
  `parse_published_ts` (`none` when unparseable).  Date-string parsing itself
  is external to every claim checked here.
* Network effects (Telegram sends, image fetches) are modelled by Boolean
  oracles passed as parameters: an oracle answers whether a given send
  attempt succeeds.  A Python exception raised by a send is the oracle
  answering `false`; exception propagation becomes explicit control flow.
* Python dicts used as maps (the seen-set) are association lists with
  insert-or-update semantics; Python sets are Lean lists with membership.
-/

namespace NewsNotifier

/-! ### Character and string primitives -/

/-- Python `str.isspace` / regex `\s` for the ASCII whitespace characters
(space, tab, newline, carriage return, vertical tab, form feed). -/
def isPyWhitespace (c : Char) : Bool :=
  c = ' ' || c = '\t' || c = '\n' || c = '\r' || c = '\x0b' || c = '\x0c'

/-- Python `str.strip()` on a character list. -/
def stripCL (s : List Char) : List Char :=
  ((s.dropWhile isPyWhitespace).reverse.dropWhile isPyWhitespace).reverse

/-- Python `str.lower()` (ASCII case folding, which covers every keyword the
program compares case-insensitively). -/
def lowerCL (s : List Char) : List Char :=
  s.map Char.toLower

/-- Python `str.isascii()`. -/
def isAsciiCL (s : List Char) : Bool :=
  s.all (fun c => c.toNat < 128)

/-- Membership in the regex class `[A-Za-z0-9_]` used by the keyword
patterns' look-around assertions. -/
def isAsciiWordChar (c : Char) : Bool :=
  c.isAlpha || c.isDigit || c = '_'

/-- A character matched by the `[\s\-]+` separator in the keyword patterns. -/
def isSepChar (c : Char) : Bool :=
  isPyWhitespace c || c = '-'

/-- Auxiliary for `splitWords`: accumulates the current word (reversed). -/
def splitWordsAux : List Char → List Char → List (List Char)
  | [], acc => if acc.isEmpty then [] else [acc.reverse]
  | c :: rest, acc =>
    if isPyWhitespace c then
      if acc.isEmpty then splitWordsAux rest []
      else acc.reverse :: splitWordsAux rest []
    else splitWordsAux rest (c :: acc)

/-- Python `str.split()` with no argument: split on whitespace runs,
dropping empty pieces. -/
def splitWords (s : List Char) : List (List Char) :=
  splitWordsAux s []

/-- All suffixes of `s` reachable by consuming one or more separator
characters, i.e. the possible continuations after matching `[\s\-]+`. -/
def sepRests : List Char → List (List Char)
  | [] => []
  | c :: rest => if isSepChar c then rest :: sepRests rest else []

/-- Matches the keyword pattern built by `build_keyword_patterns` /
`_topic_keyword_hit` for an ASCII keyword at the head of `s`: the keyword's
words in order, separated by `[\s\-]+`, followed by the `(?![A-Za-z0-9_])`
look-ahead.  `ws` is the word list of the keyword. -/
def matchParts : List (List Char) → List Char → Bool
  | [], s =>
    match s with
    | [] => true
    | c :: _ => !(isAsciiWordChar c)
  | w :: ws, s =>
    if w.isPrefixOf s then
      match ws with
      | [] =>
        match s.drop w.length with
        | [] => true
        | c :: _ => !(isAsciiWordChar c)
      | _ :: _ => (sepRests (s.drop w.length)).any (fun r => matchParts ws r)
    else false

/-- Scans the strict suffixes of the title: a match may start right after a
character that fails the `(?<![A-Za-z0-9_])` look-behind. -/
def scanAfter (ws : List (List Char)) : List Char → Bool
  | [] => false
  | c :: rest =>
    (!(isAsciiWordChar c) && matchParts ws rest) || scanAfter ws rest

/-- `re.search` of the word-boundary keyword pattern over the whole title:
a match at position 0 (no preceding character) or after any non-word
character. -/
def boundaryScan (ws : List (List Char)) (s : List Char) : Bool :=
  matchParts ws s || scanAfter ws s

/-- Case-insensitive word-boundary search of ASCII keyword `kw` in `title`
(both are lowered; the pattern is compiled with `re.IGNORECASE`). -/
def boundaryMatch (kw : List Char) (title : List Char) : Bool :=
  boundaryScan (splitWords (lowerCL kw)) (lowerCL title)

/-- Python `needle in haystack` on strings (substring containment). -/
def inStr (needle haystack : List Char) : Bool :=
  haystack.tails.any (fun t => needle.isPrefixOf t)

/-! ### Data model -/

/-- One fetched article, after feed parsing (`parse_rss_items` /
`parse_atom_entries`).  `published` is the already-parsed timestamp in
seconds (`parse_published_ts` result; `none` when missing or unparseable). -/
structure Entry where
  id : String
  title : String
  link : String
  published : Option ℚ
  image_url : String
deriving DecidableEq, Repr

/-- The identifier of an entry: `entry.get("id") or entry.get("link") or
entry.get("title")`, stripped (lines 826-828). -/
def entry_uid (e : Entry) : String :=
  let uid := if e.id ≠ "" then e.id else if e.link ≠ "" then e.link else e.title
  ⟨stripCL uid.toList⟩

/-! ### Scoring engine (lines 303-454) -/

/-- The label of the designated conflict topic, `SUMMARY_TOPIC_RULES[0].0`,
also compared against in `run` (the source stores this codepoint sequence). -/
def warTopicLabel : String :=
  "æˆ˜äº‰ä¸å†²çª"

/-- The catch-all topic label returned by `detect_topic` (line 389). -/
def defaultTopicLabel : String :=
  "å…¶ä»–åŠ¨æ€"

/-- The source name with a `zh` language preference and a 2.3 heat weight
(the source stores this codepoint sequence). -/
def xinhuaSource : String :=
  "æ–°åç¤¾"

/-- `SOURCE_HEAT_WEIGHT` (lines 303-320). -/
def SOURCE_HEAT_WEIGHT : List (String × ℚ) :=
  [("Reuters", 2.5), ("AP NEWS", 2.4), ("WaPo", 2.3), ("WSJ", 2.3),
   ("Economist", 2.1), ("Politico", 2.0), ("SCMP", 2.0), ("The Atlantic", 1.8),
   ("NYP", 1.6), ("NHK International", 2.0), ("Al Jazeera", 2.1),
   ("Bloomberg", 2.2), ("CNN", 2.1), ("BBC", 2.2), ("RT", 1.9),
   (xinhuaSource, 2.3)]

/-- `HEAT_SIGNAL_WEIGHTS` (lines 321-328). -/
def HEAT_SIGNAL_WEIGHTS : List (List String × ℚ) :=
  [(["breaking", "urgent", "alert"], 3.0),
   (["war", "attack", "missile", "ceasefire", "sanction", "explosion"], 2.6),
   (["election", "white house", "supreme court", "congress", "trump", "biden"], 2.2),
   (["fed", "inflation", "interest rate", "recession", "tariff", "bank"], 2.1),
   (["earthquake", "flood", "hurricane", "wildfire"], 2.3),
   (["ai", "chip", "semiconductor"], 1.6)]

/-- `SOURCE_HEAT_WEIGHT.get(source, 1.5)`. -/
def sourceBaseWeight (source : String) : ℚ :=
  match SOURCE_HEAT_WEIGHT.find? (fun p => p.1 = source) with
  | some p => p.2
  | none => 1.5

/-- Number of keywords of one signal group contained in the lowered title:
`sum(1 for kw in kws if kw in title)` (line 436). -/
def groupHits (titleL : List Char) (kws : List String) : Nat :=
  kws.countP (fun kw => inStr kw.toList titleL)

/-- Membership in regex `\w` for `\b` in the digit-number pattern: unlike
the keyword patterns' explicit `[A-Za-z0-9_]` classes, `\b` is
unicode-aware, so CJK characters count as word characters (the program only
ever sees `zh`/`en` titles; other non-ASCII letter scripts are not
modelled). -/
def isPyWordChar (c : Char) : Bool :=
  isAsciiWordChar c || (0x4e00 ≤ c.toNat && c.toNat ≤ 0x9fff)

/-- Regex `\b\d{3,}\b` applied to the lowered title (line 440): some
maximal run of at least three ASCII digits delimited by non-word characters
(a shorter sub-run can never satisfy both `\b` assertions, since digits are
word characters).  `atBoundary` records whether the current digit run - if
any - started at a word boundary; `runLen` is its length so far. -/
def hasBigNumberAux : List Char → Bool → Nat → Bool
  | [], atBoundary, runLen => atBoundary && decide (3 ≤ runLen)
  | c :: rest, atBoundary, runLen =>
    if c.isDigit then hasBigNumberAux rest atBoundary (runLen + 1)
    else if atBoundary && decide (3 ≤ runLen) && !(isPyWordChar c) then true
    else hasBigNumberAux rest (!(isPyWordChar c)) 0

/-- Whether the title contains a 3-or-more-digit number with word
boundaries on both sides. -/
def hasBigNumber (titleL : List Char) : Bool :=
  hasBigNumberAux titleL true 0

/-- The age of an entry in hours: `max(0, (now - published) / 3600)`
(lines 445-446 and 1619). -/
def ageHours (nowUtc : ℚ) (published : ℚ) : ℚ :=
  max 0 ((nowUtc - published) / 3600)

/-- The tiered recency bonus of `compute_news_heat` (lines 443-452). -/
def recencyBonus (nowUtc : ℚ) : Option ℚ → ℚ
  | none => 0
  | some ts =>
    let age := ageHours nowUtc ts
    if age ≤ 3 then 1.8
    else if age ≤ 12 then 1.2
    else if age ≤ 24 then 0.7
    else 0

/-- Python `round(x, 3)`.  Every score is a multiple of 1/10, so no tie
between multiples of 1/1000 ever arises and the rounding mode is
irrelevant; `round` (nearest) is used. -/
def round3 (q : ℚ) : ℚ :=
  (round (q * 1000) : ℚ) / 1000

/-- `compute_news_heat` (lines 431-454): base source weight, keyword-group
bonuses (substring hits on the lowered title, +0.4 per extra hit in the
same group), a 0.8 bonus for a 3+-digit number, and the recency bonus. -/
def compute_news_heat (source : String) (e : Entry) (nowUtc : ℚ) : ℚ :=
  let titleL := lowerCL (stripCL e.title.toList)
  let base := sourceBaseWeight source
  let afterGroups := HEAT_SIGNAL_WEIGHTS.foldl
    (fun score g =>
      let hit := groupHits titleL g.1
      if 0 < hit then score + (g.2 + ((hit - 1 : ℕ) : ℚ) * 0.4) else score)
    base
  let afterNum := if hasBigNumber titleL then afterGroups + 0.8 else afterGroups
  round3 (afterNum + recencyBonus nowUtc e.published)

/-- Keyword hit as the specification's heat formula describes it
(case-insensitive word-boundary match for alphabetic keywords, substring
match for logographic scripts), applied to the lowered stripped title. -/
def specHeatKeywordHit (titleL : List Char) (kw : String) : Bool :=
  if isAsciiCL kw.toList then boundaryScan (splitWords (lowerCL kw.toList)) titleL
  else inStr (lowerCL kw.toList) titleL

/-- The heat formula exactly as the specification states it: base weight,
plus per matching group its weight and 0.4 per matching term beyond the
first - with matches read as word-boundary matches - plus the flat
3+-digit-number bonus, plus the tiered recency bonus, rounded to 3
decimals. -/
def computeNewsHeatSpec (source : String) (e : Entry) (nowUtc : ℚ) : ℚ :=
  let titleL := lowerCL (stripCL e.title.toList)
  let groups := (HEAT_SIGNAL_WEIGHTS.map (fun g =>
    let hit := g.1.countP (fun kw => specHeatKeywordHit titleL kw)
    if 0 < hit then g.2 + ((hit - 1 : ℕ) : ℚ) * 0.4 else 0)).sum
  round3 (sourceBaseWeight source + groups +
    (if hasBigNumber titleL then (0.8 : ℚ) else 0) + recencyBonus nowUtc e.published)

/-- The heat formula of the specification with the match semantics the code
actually uses: a keyword matches when it is a substring of the lowered
title. -/
def computeNewsHeatAmended (source : String) (e : Entry) (nowUtc : ℚ) : ℚ :=
  let titleL := lowerCL (stripCL e.title.toList)
  let groups := (HEAT_SIGNAL_WEIGHTS.map (fun g =>
    let hit := groupHits titleL g.1
    if 0 < hit then g.2 + ((hit - 1 : ℕ) : ℚ) * 0.4 else 0)).sum
  round3 (sourceBaseWeight source + groups +
    (if hasBigNumber titleL then (0.8 : ℚ) else 0) + recencyBonus nowUtc e.published)

/-! ### Topic, language, relevance (lines 331-408, 858-893) -/

/-- `_topic_keyword_hit` (lines 331-339): strip both strings; ASCII keywords
use the case-insensitive word-boundary phrase pattern, other keywords plain
(case-sensitive) substring containment. -/
def topic_keyword_hit (title kw : String) : Bool :=
  let t := stripCL title.toList
  let k := stripCL kw.toList
  if t.isEmpty || k.isEmpty then false
  else if isAsciiCL k then boundaryScan (splitWords (lowerCL k)) (lowerCL t)
  else inStr k t

/-- `detect_topic` (lines 385-389) over a rule list (the configured
`get_summary_topic_rules()` result; `SUMMARY_TOPIC_RULES` by default):
first rule with any matching keyword, else the catch-all label. -/
def detect_topic (rules : List (String × List String)) (title : String) : String :=
  match rules.find? (fun r => r.2.any (fun k => topic_keyword_hit title k)) with
  | some r => r.1
  | none => defaultTopicLabel

/-- `is_iran_related` (lines 392-397) over the configured Iran keyword list:
any keyword is a substring of the stripped lowered title. -/
def is_iran_related (iranKws : List String) (e : Entry) : Bool :=
  let title := lowerCL (stripCL e.title.toList)
  if title.isEmpty then false
  else iranKws.any (fun k => inStr k.toList title)

/-- `DEFAULT_IRAN_KEYWORDS` (lines 224-234); the last two literals are the
source file's codepoint sequences. -/
def DEFAULT_IRAN_KEYWORDS : List String :=
  ["iran", "iranian", "tehran", "irgc", "revolutionary guard", "persian gulf",
   "hormuz", "ä¼Šæœ—", "å¾·é»‘å…°"]

/-- `detect_entry_language` (lines 400-408): CJK codepoint present means
`zh`, else a Latin letter means `en`, else `other`. -/
def detect_entry_language (e : Entry) : String :=
  let title := stripCL e.title.toList
  if title.isEmpty then "other"
  else if title.any (fun c => 0x4e00 ≤ c.toNat ∧ c.toNat ≤ 0x9fff) then "zh"
  else if title.any (fun c => c.isAlpha) then "en"
  else "other"

/-- `ALLOWED_PUSH_LANGUAGES` (line 89). -/
def ALLOWED_PUSH_LANGUAGES : List String :=
  ["zh", "en"]

/-- One keyword of `build_keyword_patterns` (lines 858-878) searched in the
stripped title: blank keywords produce no pattern; ASCII keywords use the
word-boundary phrase pattern, others a case-insensitive substring match
(all under `re.IGNORECASE`, modelled by lowering both sides). -/
def major_keyword_hit (title : String) (kw : String) : Bool :=
  let k := stripCL kw.toList
  if k.isEmpty then false
  else if isAsciiCL k then boundaryScan (splitWords (lowerCL k)) (lowerCL (stripCL title.toList))
  else inStr (lowerCL k) (lowerCL (stripCL title.toList))

/-- `is_major_news` (lines 881-886): a title containing `opinion`
(case-insensitively) is never major; otherwise any configured keyword
pattern must match. -/
def is_major_news (e : Entry) (majorKws : List String) : Bool :=
  let lowerTitle := lowerCL (stripCL e.title.toList)
  if inStr "opinion".toList lowerTitle then false
  else majorKws.any (fun kw => major_keyword_hit e.title kw)

/-- `SUMMARY_TOPIC_RULES` (lines 235-302), the default result of
`get_summary_topic_rules()`; non-ASCII literals reproduce the source's
codepoint sequences (the first label is the conflict-topic label). -/
def SUMMARY_TOPIC_RULES : List (String × List String) :=
  [(warTopicLabel,
    ["ceasefire", "airstrike", "attack", "missile", "drone", "shelling", "bombing", "hostage", "gaza war", "israel-hamas", "ukraine war", "russia-ukraine", "russian invasion", "ä¿„ä¹Œ", "åœç«", "ç©ºè¢­", "å¯¼å¼¹", "è¢­å‡»", "äº¤ç«", "å†›äº‹è¡ŒåŠ¨"]),
   ("ç¾å›½æ”¿æ²»",
    ["trump", "biden", "white house", "supreme court", "congress", "senate", "election"]),
   ("ä¸­å›½ä¸äºšå¤ª",
    ["china", "xi", "taiwan", "south china sea", "philippines", "asean", "japan"]),
   ("ä¸­å›½å†…æ”¿",
    ["ä¸¤ä¼š", "å…¨å›½äººå¤§", "å…¨å›½æ”¿å", "å›½åŠ¡é™¢", "å›½å¸¸ä¼š", "ä¸­å…±ä¸­å¤®", "æ”¿æ²»å±€", "æœ€é«˜æ³•", "æœ€é«˜æ£€", "å›½å®¶å‘æ”¹å§”", "è´¢æ”¿éƒ¨", "å•†åŠ¡éƒ¨", "æ•™è‚²éƒ¨", "å…¬å®‰éƒ¨", "å›½å®¶ç»Ÿè®¡å±€", "çºªæ£€", "åè…", "æˆ·ç±", "ç¤¾ä¿", "åŒ»ä¿", "åœ°æ–¹å€º", "æˆ¿åœ°äº§è°ƒæ§", "å°±ä¸š", "é«˜è€ƒ", "ä¹¡æ‘æŒ¯å…´", "å…±åŒå¯Œè£•", "domestic policy", "state council", "npc", "cppcc", "china ministry"]),
   ("ç»æµä¸å¸‚åœº",
    ["fed", "inflation", "interest rate", "recession", "tariff", "earnings", "ipo", "bank"]),
   ("ç¾å®³ä¸äº‹æ•…",
    ["earthquake", "flood", "hurricane", "wildfire", "explosion", "crash"]),
   ("ç§‘æŠ€ä¸äº§ä¸š",
    ["ai", "chip", "semiconductor", "apple", "google", "meta", "openai", "tesla"])]

/-- `is_quiet_time` (lines 889-893). -/
def is_quiet_time (quietStart quietEnd h : ℤ) : Bool :=
  if quietStart < quietEnd then quietStart ≤ h ∧ h < quietEnd
  else quietStart ≤ h ∨ h < quietEnd

/-! ### Persistent state (lines 610-659) -/

/-- The seen-set: a Python dict from identifier to first-seen Unix
timestamp, as an association list with insert-or-update semantics. -/
abbrev SeenMap : Type :=
  List (String × ℤ)

/-- The keys of the seen-set. -/
def seenKeys (m : SeenMap) : List String :=
  m.map Prod.fst

/-- Python dict assignment `seen[uid] = ts`. -/
def seenInsert (m : SeenMap) (k : String) (v : ℤ) : SeenMap :=
  if (m.map Prod.fst).contains k then
    m.map (fun p => if p.1 = k then (k, v) else p)
  else m ++ [(k, v)]

/-- `prune_seen` (lines 657-659): keep entries first seen at or after
`now - ttl_hours * 3600`. -/
def prune_seen (m : SeenMap) (ttlHours : ℤ) (nowTs : ℤ) : SeenMap :=
  m.filter (fun p => nowTs - ttlHours * 3600 ≤ p.2)

/-- One buffered item (`{source, entry, uid, heat, buffered_ts}`).  The
low-digest fallback requeues reduced dicts without `heat`/`buffered_ts`,
hence the optional fields. -/
structure BufferEntry where
  source : String
  entry : Entry
  uid : String
  heat : Option ℚ
  buffered_ts : Option ℤ
deriving DecidableEq, Repr

/-- The persisted cycle state (`load_state`, lines 610-631), restricted to
the fields the modelled operations read or write (`initialized` and
`last_run` only gate bootstrap silencing and diagnostics). -/
structure CycleState where
  seen : SeenMap
  night_buffer : List BufferEntry
  low_score_buffer : List BufferEntry
  last_digest_date : String
  last_low_digest_slot : String
deriving DecidableEq

/-! ### Dedup/freshness gate (run, lines 1568-1637) -/

/-- The per-cycle configuration values read from the environment in `run`
(lines 1476-1494) that the gate and the buffering policy consume. -/
structure CycleConfig where
  maxItemsPerSource : Nat
  maxNewsAgeHours : ℚ
  immediateHeatMin : ℚ
  majorOnly : Bool
  majorKeywords : List String
  topicRules : List (String × List String)
  iranKeywords : List String
deriving Repr

/-- Classification of one fetched entry by the gate (`run`, lines
1608-1630), given the durable seen-set and the identifiers already claimed
earlier in the cycle. -/
inductive GateOutcome where
  | skipEmpty
  | skipSeen
  | skipCycleDup
  | skipOld
  | skipMajor
  | accept
deriving DecidableEq, Repr

/-- The gate checks of `run` for one entry, in source order: empty
identifier, durable dedup (counted), same-cycle dedup (uncounted), missing
or stale timestamp, then the major-only keyword filter with the war-topic
and Iran overrides. -/
def gateClassify (cfg : CycleConfig) (seen : SeenMap) (cyc : List String)
    (nowUtc : ℚ) (e : Entry) : GateOutcome :=
  let uid := entry_uid e
  if uid = "" then .skipEmpty
  else if uid ∈ seenKeys seen then .skipSeen
  else if uid ∈ cyc then .skipCycleDup
  else
    match e.published with
    | none => .skipOld
    | some ts =>
      if cfg.maxNewsAgeHours < ageHours nowUtc ts then .skipOld
      else
        let topic := detect_topic cfg.topicRules e.title
        let war := decide (topic = warTopicLabel)
        let iran := is_iran_related cfg.iranKeywords e
        if cfg.majorOnly && !war && !iran && !(is_major_news e cfg.majorKeywords) then
          .skipMajor
        else .accept

/-- One gate-accepted item: the tuple appended to `all_new`
(line 1634). -/
structure Accepted where
  source : String
  entry : Entry
  uid : String
  heat : ℚ
  topic : String
  war : Bool
deriving DecidableEq, Repr

/-- The per-cycle skip counters of `run` (lines 1558-1561). -/
structure GateCounters where
  skipped_seen : Nat := 0
  skipped_old : Nat := 0
  skipped_major : Nat := 0
  skipped_lang : Nat := 0
deriving DecidableEq, Repr

/-- Fieldwise sum of counters. -/
def addCounters (a b : GateCounters) : GateCounters :=
  ⟨a.skipped_seen + b.skipped_seen, a.skipped_old + b.skipped_old,
   a.skipped_major + b.skipped_major, a.skipped_lang + b.skipped_lang⟩

/-- The per-source gate loop of `run` (lines 1607-1637): classify entries
in order, thread the cycle-claimed identifiers, and stop after
`max_items_per_source` acceptances. -/
def gateLoopAux (cfg : CycleConfig) (seen : SeenMap) (nowUtc : ℚ) (source : String) :
    List Entry → List String → Nat → List Accepted × List String × GateCounters
  | [], cyc, _ => ([], cyc, {})
  | e :: rest, cyc, newCount =>
    match gateClassify cfg seen cyc nowUtc e with
    | .skipEmpty => gateLoopAux cfg seen nowUtc source rest cyc newCount
    | .skipSeen =>
      let r := gateLoopAux cfg seen nowUtc source rest cyc newCount
      (r.1, r.2.1, { r.2.2 with skipped_seen := r.2.2.skipped_seen + 1 })
    | .skipCycleDup => gateLoopAux cfg seen nowUtc source rest cyc newCount
    | .skipOld =>
      let r := gateLoopAux cfg seen nowUtc source rest cyc newCount
      (r.1, r.2.1, { r.2.2 with skipped_old := r.2.2.skipped_old + 1 })
    | .skipMajor =>
      let r := gateLoopAux cfg seen nowUtc source rest cyc newCount
      (r.1, r.2.1, { r.2.2 with skipped_major := r.2.2.skipped_major + 1 })
    | .accept =>
      let uid := entry_uid e
      let topic := detect_topic cfg.topicRules e.title
      let acc : Accepted :=
        ⟨source, e, uid, compute_news_heat source e nowUtc, topic,
         decide (topic = warTopicLabel)⟩
      if cfg.maxItemsPerSource ≤ newCount + 1 then ([acc], uid :: cyc, {})
      else
        let r := gateLoopAux cfg seen nowUtc source rest (uid :: cyc) (newCount + 1)
        (acc :: r.1, r.2.1, r.2.2)

/-- `SOURCE_LANGUAGE_PREFERENCE.get(source, "en")` (lines 90-92, 1593). -/
def sourceLangPref (source : String) : String :=
  if source = xinhuaSource then "zh" else "en"

/-- The language pre-pass of `run` (lines 1596-1604): entries outside
`ALLOWED_PUSH_LANGUAGES` are dropped and counted, the rest split into
preferred-language and fallback sublists (original order kept in each). -/
def langSplit (langPref : String) : List Entry → Nat × List Entry × List Entry
  | [] => (0, [], [])
  | e :: rest =>
    let r := langSplit langPref rest
    let lang := detect_entry_language e
    if lang ∉ ALLOWED_PUSH_LANGUAGES then (r.1 + 1, r.2.1, r.2.2)
    else if lang = langPref then (r.1, e :: r.2.1, r.2.2)
    else (r.1, r.2.1, e :: r.2.2)

/-- Sort key of the pre-sort (lines 1588-1592): published timestamp, epoch 0
when missing. -/
def pubKey (e : Entry) : ℚ :=
  e.published.getD 0

/-- The stable descending sort by publish time (lines 1588-1592).  A stable
sort is determined by its comparison, so insertion sort with this relation
produces exactly Python's stable `sort(key=..., reverse=True)` order. -/
def sortByPublishedDesc (entries : List Entry) : List Entry :=
  List.insertionSort (fun a b => pubKey b ≤ pubKey a) entries

/-- The entry list one source feeds into the gate loop: language-filtered,
newest first, preferred language before fallback (lines 1588-1605). -/
def gateInputOf (source : String) (entries : List Entry) : List Entry :=
  let r := langSplit (sourceLangPref source) (sortByPublishedDesc entries)
  r.2.1 ++ r.2.2

/-- Processing of one fetched source: language pre-pass then gate loop. -/
def processSource (cfg : CycleConfig) (seen : SeenMap) (nowUtc : ℚ)
    (cyc : List String) (source : String) (entries : List Entry) :
    List Accepted × List String × GateCounters :=
  let nLang := (langSplit (sourceLangPref source) (sortByPublishedDesc entries)).1
  let r := gateLoopAux cfg seen nowUtc source (gateInputOf source entries) cyc 0
  (r.1, r.2.1, { r.2.2 with skipped_lang := r.2.2.skipped_lang + nLang })

/-- The whole fetch loop of a cycle over the successfully fetched sources,
threading the cycle-claimed identifier set (lines 1566-1637). -/
def processAllSources (cfg : CycleConfig) (seen : SeenMap) (nowUtc : ℚ) :
    List (String × List Entry) → List String → List Accepted × List String × GateCounters
  | [], cyc => ([], cyc, {})
  | (source, entries) :: rest, cyc =>
    let r := processSource cfg seen nowUtc cyc source entries
    let rr := processAllSources cfg seen nowUtc rest r.2.1
    (r.1 ++ rr.1, rr.2.1, addCounters r.2.2 rr.2.2)

/-! ### Buffering policy (run, lines 1673-1720) -/

/-- Whether an accepted item takes the immediate lane
(line 1676: `war_unfiltered or heat > immediate_heat_min`). -/
def isUrgent (cfg : CycleConfig) (a : Accepted) : Bool :=
  a.war || decide (cfg.immediateHeatMin < a.heat)

/-- The buffer entry built for an accepted item (lines 1679-1687 and
1703-1711). -/
def mkBufferEntry (a : Accepted) (ts : ℤ) : BufferEntry :=
  ⟨a.source, a.entry, a.uid, some a.heat, some ts⟩

/-- First routing pass (lines 1673-1690): urgent items collect as immediate
candidates; the rest are appended to `low_score_buffer` and marked seen.
Returns the updated state, the immediate candidates, and the appended
low-buffer entries, in arrival order. -/
def routeLowAux (cfg : CycleConfig) (ts : ℤ) :
    List Accepted → CycleState → CycleState × List Accepted × List BufferEntry
  | [], st => (st, [], [])
  | a :: rest, st =>
    if isUrgent cfg a then
      let r := routeLowAux cfg ts rest st
      (r.1, a :: r.2.1, r.2.2)
    else
      let be := mkBufferEntry a ts
      let st' := { st with low_score_buffer := st.low_score_buffer ++ [be],
                           seen := seenInsert st.seen a.uid ts }
      let r := routeLowAux cfg ts rest st'
      (r.1, r.2.1, be :: r.2.2)

/-- The identifiers already queued in the night buffer
(line 1699: truthy uids of existing entries). -/
def nightBufferUids (nb : List BufferEntry) : List String :=
  (nb.map BufferEntry.uid).filter (fun u => u ≠ "")

/-- Night redirection pass (lines 1700-1714): urgent items arriving inside
quiet hours are appended to `night_buffer` and marked seen, skipping
identifiers already queued.  Returns the updated state and the appended
entries. -/
def nightAux (ts : ℤ) :
    List Accepted → CycleState → List String → CycleState × List BufferEntry
  | [], st, _ => (st, [])
  | a :: rest, st, uids =>
    if a.uid ∈ uids then nightAux ts rest st uids
    else
      let be := mkBufferEntry a ts
      let st' := { st with night_buffer := st.night_buffer ++ [be],
                           seen := seenInsert st.seen a.uid ts }
      let r := nightAux ts rest st' (a.uid :: uids)
      (r.1, be :: r.2)

/-- Outcome of the buffering policy for one cycle. -/
structure RouteResult where
  state : CycleState
  immediate : List Accepted
  lowAdded : List BufferEntry
  nightAdded : List BufferEntry
deriving DecidableEq

/-- The complete buffering policy of `run` (lines 1673-1720): split into
immediate candidates and low-buffer appends, then inside quiet hours move
every immediate candidate into the night buffer (deduplicated by queued
identifier) and clear the immediate list. -/
def routeBuckets (cfg : CycleConfig) (quietNow : Bool) (ts : ℤ)
    (allNew : List Accepted) (st : CycleState) : RouteResult :=
  let r := routeLowAux cfg ts allNew st
  if quietNow && !r.2.1.isEmpty then
    let n := nightAux ts r.2.1 r.1 (nightBufferUids r.1.night_buffer)
    ⟨n.1, [], r.2.2, n.2⟩
  else ⟨r.1, r.2.1, r.2.2, []⟩

/-! ### Digest flushes (lines 1325-1458) and their cycle triggers -/

/-- The default source label used when a buffered item has a falsy source
(lines 1373, 1434; the source stores this codepoint sequence). -/
def unknownSourceLabel : String :=
  "æœªçŸ¥æ¥æº"

/-- `item.get("source") or` the default label. -/
def defaultedSource (s : String) : String :=
  if s = "" then unknownSourceLabel else s

/-- The per-item fallback loop shared by both flushes (lines 1369-1388 and
1430-1449): `itemOk` is the delivery oracle (false models a raising
`send_news_item`); returns the requeued failures in order, the success
count and the failure count. -/
def fallbackSendItems (itemOk : String → Entry → Bool) :
    List BufferEntry → List BufferEntry × Nat × Nat
  | [] => ([], 0, 0)
  | x :: rest =>
    let r := fallbackSendItems itemOk rest
    if itemOk (defaultedSource x.source) x.entry then (r.1, r.2.1 + 1, r.2.2)
    else (x :: r.1, r.2.1, r.2.2 + 1)

/-- `flush_night_digest` (lines 1396-1458).  `summarySent` is the value
returned by `maybe_send_compact_summary` (false both when the item count is
at or below the AI threshold and when nothing was sent); a summary-path
exception would abort the cycle before any state change and is outside this
function's modelled behaviour. -/
def flush_night_digest (summarySent : Bool) (itemOk : String → Entry → Bool)
    (st : CycleState) (today : String) : CycleState :=
  if st.night_buffer = [] then st
  else if summarySent then { st with night_buffer := [], last_digest_date := today }
  else
    let r := fallbackSendItems itemOk st.night_buffer
    if r.2.2 ≠ 0 then { st with night_buffer := r.1 }
    else { st with night_buffer := [], last_digest_date := today }

/-- The projection of a buffered item to the reduced dict the low-score
flush builds (line 1350): `{source, entry, uid}` without heat or
timestamp. -/
def toLowItem (x : BufferEntry) : BufferEntry :=
  ⟨x.source, x.entry, x.uid, none, none⟩

/-- The `f"{date}-{hour:02d}"` slot key (line 1340). -/
def lowSlotKey (today : String) (hour : Nat) : String :=
  today ++ "-" ++ (if hour < 10 then "0" ++ toString hour else toString hour)

/-- Observable outcome of `flush_low_score_digest_if_due`: the new state,
the returned `(items, messages)` pair, and which delivery attempts
happened (the summary send, and the per-item fallback attempts). -/
structure LowFlushResult where
  state : CycleState
  items : Nat
  messages : Nat
  summaryAttempted : Bool
  fallbackAttempts : List BufferEntry
deriving DecidableEq

/-- `flush_low_score_digest_if_due` (lines 1325-1393): out of hours or in an
already-served slot nothing happens; otherwise the slot key is recorded
first, an empty buffer just logs, a successful summary clears the buffer,
and a failing summary falls back to per-item sends with failures
requeued (as reduced dicts). -/
def flush_low_score_digest_if_due (summaryOk : Bool) (itemOk : String → Entry → Bool)
    (digestHours : List Nat) (today : String) (hour : Nat) (st : CycleState) :
    LowFlushResult :=
  if !(digestHours.contains hour) then ⟨st, 0, 0, false, []⟩
  else
    let slot := lowSlotKey today hour
    if st.last_low_digest_slot = slot then ⟨st, 0, 0, false, []⟩
    else
      let st1 := { st with last_low_digest_slot := slot }
      if st.low_score_buffer = [] then ⟨st1, 0, 0, false, []⟩
      else
        let items := st.low_score_buffer.map toLowItem
        if summaryOk then
          ⟨{ st1 with low_score_buffer := [] }, items.length, 1, true, []⟩
        else
          let r := fallbackSendItems itemOk items
          ⟨{ st1 with low_score_buffer := r.1 }, r.2.1,
           if r.2.2 ≠ 0 then r.2.1 else if 0 < r.2.1 then 1 else 0,
           true, items⟩

/-- The night-digest trigger of `run` (line 1525): not inside quiet hours,
hour at or past `quiet_end`, and not yet flushed today. -/
def nightFlushDue (quietStart quietEnd hour : ℤ) (lastDigestDate today : String) : Bool :=
  !(is_quiet_time quietStart quietEnd hour) && decide (quietEnd ≤ hour) &&
    !(lastDigestDate = today)

/-! ### Delivery adapter (send_news_item, lines 1056-1117) and the
immediate per-item loop of run (lines 1743-1754) -/

/-- The destination labels of `_telegram_targets` (lines 953-967): always
the primary, plus the secondary when one is configured and distinct. -/
def newsItemTargets (hasSecondary : Bool) : List String :=
  if hasSecondary then ["primary", "secondary"] else ["primary"]

/-- The photo-candidate loop of `send_news_item` for one destination
(lines 1073-1093): skip blank and already-tried URLs, stop at the first
accepted send.  `photoOk` is the send oracle for this destination. -/
def tryPhotoCandidates (photoOk : String → Bool) :
    List String → List String → Bool
  | [], _ => false
  | u :: rest, tried =>
    if u = "" || u ∈ tried then tryPhotoCandidates photoOk rest tried
    else if photoOk u then true
    else tryPhotoCandidates photoOk rest (u :: tried)

/-- What a `send_news_item` call did: whether it raised to the caller, and
the escalation alert batches it attempted (`_notify_push_failure` sends one
alert to every destination, lines 980-1000). -/
structure SendNewsResult where
  raised : Bool
  alerts : List (List String)
deriving DecidableEq, Repr

/-- The destination loop of `send_news_item` (lines 1072-1117): per
destination try every image candidate, then the text fallback; a fully
failed destination triggers an escalation alert to all destinations, and a
fully failed primary raises immediately (so later destinations are not
attempted). -/
def sendNewsItemLoop (photoOk : String → String → Bool) (msgOk : String → Bool)
    (candidates : List String) (allTargets : List String) :
    List String → SendNewsResult
  | [] => ⟨false, []⟩
  | label :: rest =>
    if tryPhotoCandidates (photoOk label) candidates [] || msgOk label then
      sendNewsItemLoop photoOk msgOk candidates allTargets rest
    else if label = "primary" then ⟨true, [allTargets]⟩
    else
      let r := sendNewsItemLoop photoOk msgOk candidates allTargets rest
      ⟨r.raised, allTargets :: r.alerts⟩

/-- `send_news_item` over its computed image-candidate list (feed image,
scraped article image, source logos, fixed placeholder - candidate
construction is lines 1059-1069; the network-derived list is taken as a
parameter). -/
def send_news_item (photoOk : String → String → Bool) (msgOk : String → Bool)
    (candidates : List String) (hasSecondary : Bool) : SendNewsResult :=
  sendNewsItemLoop photoOk msgOk candidates (newsItemTargets hasSecondary)
    (newsItemTargets hasSecondary)

/-- The per-item immediate delivery loop of `run` (lines 1743-1754):
`sendRaises` tells whether `send_news_item` raises for an item; a success
marks the identifier seen and counts `pushed_ok`, a raise only counts
`pushed_fail`.  Returns the final seen-set and both counters. -/
def deliverImmediateItems (sendRaises : Accepted → Bool) (cycleTs : ℤ) :
    List Accepted → SeenMap → Nat → Nat → SeenMap × Nat × Nat
  | [], seen, okCount, failCount => (seen, okCount, failCount)
  | a :: rest, seen, okCount, failCount =>
    if sendRaises a then
      deliverImmediateItems sendRaises cycleTs rest seen okCount (failCount + 1)
    else
      deliverImmediateItems sendRaises cycleTs rest
        (seenInsert seen a.uid cycleTs) (okCount + 1) failCount

/-! ### A concrete cycle exhibiting the night-buffer duplicate corner case:
a fresh conflict-topic entry whose identifier is already queued in the
night buffer but (for example after TTL pruning) no longer in the
seen-set. -/

/-- Configuration for the duplicate-in-night-buffer scenario (major-only
filter off, default topic rules). -/
def dupNightConfig : CycleConfig :=
  ⟨3, 24, 5, false, [], SUMMARY_TOPIC_RULES, DEFAULT_IRAN_KEYWORDS⟩

/-- A fresh conflict-topic entry. -/
def dupNightEntry : Entry :=
  ⟨"u1", "Missile strike hits city", "", some 0, ""⟩

/-- The accepted item the gate produces for `dupNightEntry` from source
`S`. -/
def dupNightAccepted : Accepted :=
  ⟨"S", dupNightEntry, "u1", compute_news_heat "S" dupNightEntry 0,
   warTopicLabel, true⟩

/-- State whose night buffer already holds the identifier `u1` while the
seen-set does not. -/
def dupNightState : CycleState :=
  ⟨[], [⟨"S", dupNightEntry, "u1", some 6, some 0⟩], [], "", ""⟩

/-! ### Helper lemmas -/

theorem fallbackSendItems_remain (itemOk : String → Entry → Bool) (L : List BufferEntry) :
    (fallbackSendItems itemOk L).1 =
      L.filter (fun x => !(itemOk (defaultedSource x.source) x.entry)) := by
  induction L with
  | nil => rfl
  | cons x rest ih =>
    simp only [fallbackSendItems, List.filter]
    cases h : itemOk (defaultedSource x.source) x.entry
    · simp [h, ih]
    · simp [h, ih]

theorem fallbackSendItems_failed (itemOk : String → Entry → Bool) (L : List BufferEntry) :
    (fallbackSendItems itemOk L).2.2 =
      L.countP (fun x => !(itemOk (defaultedSource x.source) x.entry)) := by
  induction L with
  | nil => rfl
  | cons x rest ih =>
    simp only [fallbackSendItems, List.countP_cons]
    cases h : itemOk (defaultedSource x.source) x.entry
    · simp [h, ih]
    · simp [h, ih]

/-! ### C4: night-digest trigger -/

/-- C4 (corrected): the trigger of the night-digest flush in `run` is the
claimed condition (`now.hour >= quiet_end` and `last_digest_date != today`)
conjoined with not currently being inside quiet hours; when
`quiet_start < quiet_end` (a non-wrapping quiet window) the extra conjunct
is implied, so there the flush fires exactly iff the claimed condition
holds. -/
theorem night_flush_trigger_nonwrap (qs qe h : ℤ) (last today : String)
    (hlt : qs < qe) :
    nightFlushDue qs qe h last today = true ↔ (qe ≤ h ∧ last ≠ today) := by
  simp only [nightFlushDue, is_quiet_time, if_pos hlt, Bool.and_assoc,
    Bool.and_eq_true, Bool.not_eq_true', decide_eq_false_iff_not, decide_eq_true_eq,
    not_and, not_lt]
  constructor
  · rintro ⟨-, h1, h2⟩
    exact ⟨h1, h2⟩
  · rintro ⟨h1, h2⟩
    exact ⟨fun _ => h1, h1, h2⟩

/-- Witness for C4's amended trigger equivalence at a concrete input. -/
theorem night_flush_trigger_nonwrap_witness :
    nightFlushDue 1 9 10 "" "2024-06-01" = true :=
  (night_flush_trigger_nonwrap 1 9 10 "" "2024-06-01" (by decide)).mpr
    ⟨by decide, by decide⟩

/-- Counterexample to C4 as stated: with the default wrap-around quiet
window 23-9, at hour 23 with the digest not yet flushed today the claimed
condition holds but `run` does not attempt the flush (it is quiet time). -/
theorem night_flush_trigger_claim_cex :
    nightFlushDue 23 9 23 "" "2024-06-01" = false ∧
      (9 : ℤ) ≤ 23 ∧ ("" : String) ≠ "2024-06-01" :=
  ⟨by decide, by decide, by decide⟩

/-! ### C5: night-digest flush semantics -/

/-- C5 (confirmed): for a non-empty night buffer, a successful compact
summary clears the buffer and advances the digest date; on the per-item
fallback path, any failed delivery leaves exactly the failed items queued
(in order) with the date untouched, while all-successful delivery clears
the buffer and advances the date. -/
theorem flush_night_digest_outcomes (summarySent : Bool)
    (itemOk : String → Entry → Bool) (st : CycleState) (today : String)
    (hne : st.night_buffer ≠ []) :
    (summarySent = true →
      flush_night_digest summarySent itemOk st today =
        { st with night_buffer := [], last_digest_date := today }) ∧
    (summarySent = false →
      ((∃ x ∈ st.night_buffer, itemOk (defaultedSource x.source) x.entry = false) →
        (flush_night_digest summarySent itemOk st today).night_buffer =
          st.night_buffer.filter
            (fun x => !(itemOk (defaultedSource x.source) x.entry)) ∧
        (flush_night_digest summarySent itemOk st today).last_digest_date =
          st.last_digest_date) ∧
      ((∀ x ∈ st.night_buffer, itemOk (defaultedSource x.source) x.entry = true) →
        flush_night_digest summarySent itemOk st today =
          { st with night_buffer := [], last_digest_date := today })) := by
  refine ⟨fun hs => ?_, fun hs => ⟨fun hfail => ?_, fun hok => ?_⟩⟩
  · simp [flush_night_digest, hne, hs]
  · have hcnt : (fallbackSendItems itemOk st.night_buffer).2.2 ≠ 0 := by
      rw [fallbackSendItems_failed]
      rcases hfail with ⟨x, hx, hxf⟩
      have : 0 < st.night_buffer.countP
          (fun x => !(itemOk (defaultedSource x.source) x.entry)) := by
        refine List.countP_pos_iff.mpr ⟨x, hx, ?_⟩
        simp [hxf]
      omega
    simp [flush_night_digest, hne, hs, hcnt, fallbackSendItems_remain]
  · have hcnt : (fallbackSendItems itemOk st.night_buffer).2.2 = 0 := by
      rw [fallbackSendItems_failed]
      refine List.countP_eq_zero.mpr ?_
      intro x hx
      simp [hok x hx]
    simp [flush_night_digest, hne, hs, hcnt]

/-- Witness for C5 at a concrete two-item buffer where exactly the second
item fails: the buffer keeps only the failed item and the date stays. -/
theorem flush_night_digest_outcomes_witness :
    (flush_night_digest false (fun s _ => s = "A")
        ⟨[], [⟨"A", ⟨"i1", "t1", "", none, ""⟩, "i1", some 6, some 0⟩,
              ⟨"B", ⟨"i2", "t2", "", none, ""⟩, "i2", some 7, some 0⟩], [], "", ""⟩
        "2024-06-01").night_buffer =
      [⟨"B", ⟨"i2", "t2", "", none, ""⟩, "i2", some 7, some 0⟩] ∧
    (flush_night_digest false (fun s _ => s = "A")
        ⟨[], [⟨"A", ⟨"i1", "t1", "", none, ""⟩, "i1", some 6, some 0⟩,
              ⟨"B", ⟨"i2", "t2", "", none, ""⟩, "i2", some 7, some 0⟩], [], "", ""⟩
        "2024-06-01").last_digest_date = "" := by
  have h := flush_night_digest_outcomes false (fun s _ => s = "A")
    ⟨[], [⟨"A", ⟨"i1", "t1", "", none, ""⟩, "i1", some 6, some 0⟩,
          ⟨"B", ⟨"i2", "t2", "", none, ""⟩, "i2", some 7, some 0⟩], [], "", ""⟩
    "2024-06-01" (by decide)
  have h2 := (h.2 rfl).1
    ⟨⟨"B", ⟨"i2", "t2", "", none, ""⟩, "i2", some 7, some 0⟩, by decide, by decide⟩
  refine ⟨?_, h2.2⟩
  rw [h2.1]
  decide

/-! ### C6: low-score digest single-fire per slot -/

/-- C6 (confirmed): when the low-score digest is due, the slot key is
recorded unconditionally - before and regardless of any send outcome and
even for an empty buffer; and re-evaluating the flush in the same slot
(whatever the delivery oracles then say) performs no summary attempt, no
fallback sends, and leaves the state - in particular the buffer -
unchanged. -/
theorem flush_low_digest_single_fire (summaryOk summaryOk' : Bool)
    (itemOk itemOk' : String → Entry → Bool) (digestHours : List Nat)
    (today : String) (hour : Nat) (st : CycleState) :
    (digestHours.contains hour = true →
      st.last_low_digest_slot ≠ lowSlotKey today hour →
      (flush_low_score_digest_if_due summaryOk itemOk digestHours today hour
          st).state.last_low_digest_slot = lowSlotKey today hour) ∧
    (flush_low_score_digest_if_due summaryOk' itemOk' digestHours today hour
        (flush_low_score_digest_if_due summaryOk itemOk digestHours today hour st).state =
      ⟨(flush_low_score_digest_if_due summaryOk itemOk digestHours today hour st).state,
        0, 0, false, []⟩) := by
  by_cases hh : digestHours.contains hour = true
  · have hmem : hour ∈ digestHours := by simpa using hh
    by_cases hslot : st.last_low_digest_slot = lowSlotKey today hour
    · constructor
      · intro _ hne
        exact absurd hslot hne
      · simp [flush_low_score_digest_if_due, hmem, hslot]
    · have hkey : ∀ b : Bool, ∀ io : String → Entry → Bool,
          (flush_low_score_digest_if_due b io digestHours today hour
            st).state.last_low_digest_slot = lowSlotKey today hour := by
        intro b io
        by_cases hbuf : st.low_score_buffer = []
        · simp [flush_low_score_digest_if_due, hmem, hslot, hbuf]
        · cases b
          · simp [flush_low_score_digest_if_due, hmem, hslot, hbuf]
          · simp [flush_low_score_digest_if_due, hmem, hslot, hbuf]
      refine ⟨fun _ _ => hkey summaryOk itemOk, ?_⟩
      have h1 := hkey summaryOk itemOk
      conv_lhs =>
        rw [flush_low_score_digest_if_due]
      simp [hmem, h1]
  · have hmem : ¬hour ∈ digestHours := by simpa using hh
    constructor
    · intro hc
      exact absurd hc hh
    · simp [flush_low_score_digest_if_due, hmem]

/-- Witness for C6: a due slot records its key, and a repeat evaluation in
the same slot is a no-op. -/
theorem flush_low_digest_single_fire_witness :
    (flush_low_score_digest_if_due false (fun _ _ => false) [9] "2024-06-01" 9
        ⟨[], [], [⟨"A", ⟨"i1", "t1", "", none, ""⟩, "i1", some 2, some 0⟩], "", ""⟩).state.last_low_digest_slot
      = "2024-06-01-09" ∧
    (flush_low_score_digest_if_due true (fun _ _ => true) [9] "2024-06-01" 9
        (flush_low_score_digest_if_due false (fun _ _ => false) [9] "2024-06-01" 9
          ⟨[], [], [⟨"A", ⟨"i1", "t1", "", none, ""⟩, "i1", some 2, some 0⟩], "", ""⟩).state).summaryAttempted
      = false := by
  have h := flush_low_digest_single_fire false true (fun _ _ => false) (fun _ _ => true)
    [9] "2024-06-01" 9
    ⟨[], [], [⟨"A", ⟨"i1", "t1", "", none, ""⟩, "i1", some 2, some 0⟩], "", ""⟩
  refine ⟨?_, ?_⟩
  · have := h.1 (by decide) (by decide)
    simpa using this
  · rw [h.2]

/-! ### C7: war-topic and Iran override of the major-only filter -/

/-- C7 (confirmed): an entry whose detected topic is the conflict topic, or
which is Iran-related, is never classified as a major-skip by the gate,
whatever the configured major keywords say about its title. -/
theorem gate_no_major_skip_for_war_or_iran (cfg : CycleConfig) (seen : SeenMap)
    (cyc : List String) (nowUtc : ℚ) (e : Entry)
    (h : detect_topic cfg.topicRules e.title = warTopicLabel ∨
         is_iran_related cfg.iranKeywords e = true) :
    gateClassify cfg seen cyc nowUtc e ≠ GateOutcome.skipMajor := by
  unfold gateClassify
  by_cases h1 : entry_uid e = ""
  · simp [h1]
  · by_cases h2 : entry_uid e ∈ seenKeys seen
    · simp [h1, h2]
    · by_cases h3 : entry_uid e ∈ cyc
      · simp [h1, h2, h3]
      · cases hpub : e.published with
        | none => simp [h1, h2, h3, hpub]
        | some ts =>
          by_cases h4 : cfg.maxNewsAgeHours < ageHours nowUtc ts
          · simp [h1, h2, h3, hpub, h4]
          · rcases h with hw | hi
            · simp [h1, h2, h3, hpub, h4, hw]
            · simp [h1, h2, h3, hpub, h4, hi]

/-- Witness for C7: a fresh conflict-topic entry under an enabled
major-only filter whose keywords do not match is still not major-skipped. -/
theorem gate_no_major_skip_for_war_or_iran_witness :
    gateClassify ⟨3, 24, 5, true, ["zzz"], SUMMARY_TOPIC_RULES, DEFAULT_IRAN_KEYWORDS⟩
      [] [] 0 ⟨"u1", "Ceasefire talks resume", "", some 0, ""⟩ ≠
      GateOutcome.skipMajor :=
  gate_no_major_skip_for_war_or_iran _ _ _ _ _ (Or.inl (by decide))

/-! ### C9: the opinion filter inside is_major_news -/

/-- C9 (confirmed): a title containing the substring `opinion`
(case-insensitively) makes `is_major_news` return false for every keyword
configuration; consequently the gate major-skips such an entry whenever the
major-only filter is on, the entry is neither war-topic nor Iran-related,
and it survives the identifier and freshness checks. -/
theorem opinion_title_never_major (cfg : CycleConfig) (seen : SeenMap)
    (cyc : List String) (nowUtc : ℚ) (e : Entry) (ts : ℚ) (kws : List String)
    (hop : inStr "opinion".toList (lowerCL (stripCL e.title.toList)) = true)
    (hmaj : cfg.majorOnly = true)
    (hwar : detect_topic cfg.topicRules e.title ≠ warTopicLabel)
    (hiran : is_iran_related cfg.iranKeywords e = false)
    (huid : entry_uid e ≠ "")
    (hseen : entry_uid e ∉ seenKeys seen)
    (hcyc : entry_uid e ∉ cyc)
    (hpub : e.published = some ts)
    (hfresh : ageHours nowUtc ts ≤ cfg.maxNewsAgeHours) :
    is_major_news e kws = false ∧
      gateClassify cfg seen cyc nowUtc e = GateOutcome.skipMajor := by
  have hmajor : ∀ ks : List String, is_major_news e ks = false := by
    intro ks
    unfold is_major_news
    show (if inStr "opinion".toList (lowerCL (stripCL e.title.toList)) = true then false
          else ks.any (fun kw => major_keyword_hit e.title kw)) = false
    exact if_pos hop
  refine ⟨hmajor kws, ?_⟩
  have hage : ¬cfg.maxNewsAgeHours < ageHours nowUtc ts := not_lt.mpr hfresh
  unfold gateClassify
  simp [huid, hseen, hcyc, hpub, hage, hmaj, hwar, hiran, hmajor cfg.majorKeywords]

/-- Witness for C9: an opinion-tagged title matching the configured keyword
`war` is rejected as a major-skip. -/
theorem opinion_title_never_major_witness :
    is_major_news ⟨"u1", "Opinion: war breaks out", "", some 0, ""⟩ ["war"] = false ∧
      gateClassify ⟨3, 24, 5, true, ["war"], SUMMARY_TOPIC_RULES, DEFAULT_IRAN_KEYWORDS⟩
        [] [] 0 ⟨"u1", "Opinion: war breaks out", "", some 0, ""⟩ =
        GateOutcome.skipMajor :=
  opinion_title_never_major _ _ _ _ _ 0 _ (by decide) (by decide) (by decide)
    (by decide) (by decide) (by decide) (by decide) rfl (by norm_num [ageHours])

/-! ### C3: the heat formula -/

theorem heat_foldl_eq (titleL : List Char) :
    ∀ (L : List (List String × ℚ)) (init : ℚ),
      L.foldl (fun score g =>
        if 0 < groupHits titleL g.1 then
          score + (g.2 + ((groupHits titleL g.1 - 1 : ℕ) : ℚ) * 0.4)
        else score) init =
      init + (L.map (fun g =>
        if 0 < groupHits titleL g.1 then
          g.2 + ((groupHits titleL g.1 - 1 : ℕ) : ℚ) * 0.4 else 0)).sum := by
  intro L
  induction L with
  | nil => intro init; simp
  | cons a L ih =>
    intro init
    simp only [List.foldl_cons, List.map_cons, List.sum_cons]
    by_cases h : 0 < groupHits titleL a.1
    · rw [if_pos h, if_pos h, ih]
      ring
    · rw [if_neg h, if_neg h, ih]
      ring

/-- C3 (corrected): `compute_news_heat` computes exactly the claimed
formula - per-source base weight with default 1.5, group weight plus 0.4
per extra hit, flat 3+-digit bonus, tiered recency bonus, rounded to 3
decimals - except that a keyword matches the title by case-insensitive
substring containment, not by word-boundary matching. -/
theorem compute_news_heat_eq_amended (source : String) (e : Entry) (nowUtc : ℚ) :
    compute_news_heat source e nowUtc = computeNewsHeatAmended source e nowUtc := by
  unfold compute_news_heat computeNewsHeatAmended
  dsimp only
  rw [heat_foldl_eq]
  by_cases hb : hasBigNumber (lowerCL (stripCL e.title.toList)) = true
  · rw [if_pos hb, if_pos hb]
  · rw [if_neg hb, if_neg hb]
    exact congrArg round3 (by ring)

/-- Counterexample to C3 as stated: for the title `federal` the code's
substring matching fires the `fed` signal (heat 3.6) while the claimed
word-boundary matching does not (heat 1.5). -/
theorem heat_formula_claim_cex :
    compute_news_heat "S" ⟨"", "federal", "", none, ""⟩ 0 ≠
      computeNewsHeatSpec "S" ⟨"", "federal", "", none, ""⟩ 0 := by
  have hbig : hasBigNumber (lowerCL (stripCL ['f', 'e', 'd', 'e', 'r', 'a', 'l'])) = false := by
    decide
  have hcode : compute_news_heat "S" ⟨"", "federal", "", none, ""⟩ 0 = 18/5 := by
    simp +decide [compute_news_heat, HEAT_SIGNAL_WEIGHTS, sourceBaseWeight,
      SOURCE_HEAT_WEIGHT, xinhuaSource, recencyBonus, round3, hbig]
    norm_num [round_eq]
  have hspec : computeNewsHeatSpec "S" ⟨"", "federal", "", none, ""⟩ 0 = 3/2 := by
    simp +decide [computeNewsHeatSpec, HEAT_SIGNAL_WEIGHTS, sourceBaseWeight,
      SOURCE_HEAT_WEIGHT, xinhuaSource, recencyBonus, round3, hbig]
    norm_num [round_eq]
  rw [hcode, hspec]
  norm_num

/-! ### C8: delivery failure semantics of an immediate single item -/

theorem tryPhotoCandidates_all_false (pOk : String → Bool)
    (h : ∀ u, pOk u = false) :
    ∀ cands tried, tryPhotoCandidates pOk cands tried = false := by
  intro cands
  induction cands with
  | nil => intro tried; rfl
  | cons u rest ih =>
    intro tried
    simp only [tryPhotoCandidates]
    split
    · exact ih tried
    · rw [if_neg (by simp [h u])]
      exact ih (u :: tried)

/-- C8 (confirmed): when every photo candidate and the text fallback fail
for the primary destination, `send_news_item` raises after attempting one
escalation alert to all destinations (the secondary is not even tried); in
the immediate per-item loop of `run` a raising send counts `pushed_fail`
and leaves the seen-set untouched; and when the primary succeeds, failures
at the secondary never make the call raise. -/
theorem send_news_item_failure_semantics (photoOk : String → String → Bool)
    (msgOk : String → Bool) (candidates : List String)
    (sendRaises : Accepted → Bool) (a : Accepted) (seen : SeenMap) (ts : ℤ)
    (okCount failCount : Nat) :
    ((∀ u, photoOk "primary" u = false) → msgOk "primary" = false →
      (send_news_item photoOk msgOk candidates true).raised = true ∧
      (send_news_item photoOk msgOk candidates true).alerts =
        [["primary", "secondary"]]) ∧
    (sendRaises a = true →
      deliverImmediateItems sendRaises ts [a] seen okCount failCount =
        (seen, okCount, failCount + 1)) ∧
    ((tryPhotoCandidates (photoOk "primary") candidates [] = true ∨
        msgOk "primary" = true) →
      (send_news_item photoOk msgOk candidates true).raised = false) := by
  refine ⟨fun hp hm => ?_, fun hr => ?_, fun hps => ?_⟩
  · have hTry := tryPhotoCandidates_all_false (photoOk "primary") hp candidates []
    simp [send_news_item, newsItemTargets, sendNewsItemLoop, hTry, hm]
  · simp [deliverImmediateItems, hr]
  · have hfirst : (tryPhotoCandidates (photoOk "primary") candidates [] ||
        msgOk "primary") = true := by
      rcases hps with h1 | h1 <;> simp [h1]
    simp only [send_news_item, newsItemTargets, if_pos rfl, sendNewsItemLoop, hfirst,
      if_true]
    by_cases hs : (tryPhotoCandidates (photoOk "secondary") candidates [] ||
        msgOk "secondary") = true
    · simp [sendNewsItemLoop, hs]
    · simp only [Bool.not_eq_true] at hs
      simp [sendNewsItemLoop, hs]

/-- Witness for C8 with all-failing oracles: the call raises with one alert
to both destinations, and the caller loop records a pushed-fail without
touching the seen-set. -/
theorem send_news_item_failure_semantics_witness :
    (send_news_item (fun _ _ => false) (fun _ => false) ["x"] true).raised = true ∧
    deliverImmediateItems (fun _ => true) 0
        [⟨"S", ⟨"u1", "t", "", none, ""⟩, "u1", 6, "other", false⟩] [] 0 0 =
      ([], 0, 1) := by
  have h := send_news_item_failure_semantics (fun _ _ => false) (fun _ => false)
    ["x"] (fun _ => true) ⟨"S", ⟨"u1", "t", "", none, ""⟩, "u1", 6, "other", false⟩
    [] 0 0 0
  exact ⟨(h.1 (fun _ => rfl) rfl).1, h.2.1 rfl⟩

/-! ### Gate and routing lemmas -/

theorem gateClassify_accept_not_seen (cfg : CycleConfig) (seen : SeenMap)
    (cyc : List String) (nowUtc : ℚ) (e : Entry)
    (h : gateClassify cfg seen cyc nowUtc e = GateOutcome.accept) :
    entry_uid e ∉ seenKeys seen := by
  intro hmem
  unfold gateClassify at h
  by_cases h1 : entry_uid e = ""
  · rw [if_pos h1] at h
    exact absurd h (by decide)
  · rw [if_neg h1, if_pos hmem] at h
    exact absurd h (by decide)

theorem gateClassify_seen_skips (cfg : CycleConfig) (seen : SeenMap)
    (cyc : List String) (nowUtc : ℚ) (e : Entry)
    (hmem : entry_uid e ∈ seenKeys seen) (hne : entry_uid e ≠ "") :
    gateClassify cfg seen cyc nowUtc e = GateOutcome.skipSeen := by
  unfold gateClassify
  rw [if_neg hne, if_pos hmem]

theorem mem_gateLoopAux (cfg : CycleConfig) (seen : SeenMap) (nowUtc : ℚ)
    (source : String) :
    ∀ (entries : List Entry) (cyc : List String) (n : Nat) (a : Accepted),
      a ∈ (gateLoopAux cfg seen nowUtc source entries cyc n).1 →
      a.uid ∉ seenKeys seen ∧ a.entry ∈ entries := by
  intro entries
  induction entries with
  | nil =>
    intro cyc n a h
    simp [gateLoopAux] at h
  | cons e rest ih =>
    intro cyc n a h
    rw [gateLoopAux] at h
    cases hg : gateClassify cfg seen cyc nowUtc e with
    | skipEmpty =>
      simp only [hg] at h
      have := ih cyc n a h
      exact ⟨this.1, List.mem_cons_of_mem _ this.2⟩
    | skipSeen =>
      simp only [hg] at h
      have := ih cyc n a h
      exact ⟨this.1, List.mem_cons_of_mem _ this.2⟩
    | skipCycleDup =>
      simp only [hg] at h
      have := ih cyc n a h
      exact ⟨this.1, List.mem_cons_of_mem _ this.2⟩
    | skipOld =>
      simp only [hg] at h
      have := ih cyc n a h
      exact ⟨this.1, List.mem_cons_of_mem _ this.2⟩
    | skipMajor =>
      simp only [hg] at h
      have := ih cyc n a h
      exact ⟨this.1, List.mem_cons_of_mem _ this.2⟩
    | accept =>
      simp only [hg] at h
      by_cases hcap : cfg.maxItemsPerSource ≤ n + 1
      · rw [if_pos hcap] at h
        simp only [List.mem_singleton] at h
        subst h
        exact ⟨gateClassify_accept_not_seen cfg seen cyc nowUtc e hg,
          List.mem_cons_self _ _⟩
      · rw [if_neg hcap] at h
        rcases List.mem_cons.mp h with h' | h'
        · subst h'
          exact ⟨gateClassify_accept_not_seen cfg seen cyc nowUtc e hg,
            List.mem_cons_self _ _⟩
        · have := ih (entry_uid e :: cyc) (n + 1) a h'
          exact ⟨this.1, List.mem_cons_of_mem _ this.2⟩

theorem mem_langSplit (p : String) :
    ∀ (L : List Entry) (x : Entry),
      (x ∈ (langSplit p L).2.1 ∨ x ∈ (langSplit p L).2.2) →
      detect_entry_language x ∈ ALLOWED_PUSH_LANGUAGES := by
  intro L
  induction L with
  | nil =>
    intro x h
    simp [langSplit] at h
  | cons e rest ih =>
    intro x h
    rw [langSplit] at h
    by_cases hc : detect_entry_language e ∈ ALLOWED_PUSH_LANGUAGES
    · rw [if_neg (not_not_intro hc)] at h
      by_cases hp : detect_entry_language e = p
      · rw [if_pos hp] at h
        rcases h with h' | h'
        · rcases List.mem_cons.mp h' with h'' | h''
          · subst h''
            exact hc
          · exact ih x (Or.inl h'')
        · exact ih x (Or.inr h')
      · rw [if_neg hp] at h
        rcases h with h' | h'
        · exact ih x (Or.inl h')
        · rcases List.mem_cons.mp h' with h'' | h''
          · subst h''
            exact hc
          · exact ih x (Or.inr h'')
    · rw [if_pos hc] at h
      exact ih x h

theorem mem_gateInputOf (source : String) (entries : List Entry) (x : Entry)
    (h : x ∈ gateInputOf source entries) :
    detect_entry_language x ∈ ALLOWED_PUSH_LANGUAGES := by
  unfold gateInputOf at h
  exact mem_langSplit (sourceLangPref source) (sortByPublishedDesc entries) x
    (List.mem_append.mp h)

theorem mem_processAllSources (cfg : CycleConfig) (seen : SeenMap) (nowUtc : ℚ) :
    ∀ (sources : List (String × List Entry)) (cyc : List String) (a : Accepted),
      a ∈ (processAllSources cfg seen nowUtc sources cyc).1 →
      a.uid ∉ seenKeys seen ∧
      detect_entry_language a.entry ∈ ALLOWED_PUSH_LANGUAGES := by
  intro sources
  induction sources with
  | nil =>
    intro cyc a h
    simp [processAllSources] at h
  | cons p rest ih =>
    intro cyc a h
    obtain ⟨source, entries⟩ := p
    rw [processAllSources] at h
    rcases List.mem_append.mp h with h' | h'
    · have h'' : a ∈ (gateLoopAux cfg seen nowUtc source
          (gateInputOf source entries) cyc 0).1 := h'
      have hm := mem_gateLoopAux cfg seen nowUtc source
        (gateInputOf source entries) cyc 0 a h''
      exact ⟨hm.1, mem_gateInputOf source entries a.entry hm.2⟩
    · exact ih _ a h'

theorem langSplit_count (p : String) :
    ∀ L : List Entry, (langSplit p L).1 =
      L.countP (fun x => decide (detect_entry_language x ∉ ALLOWED_PUSH_LANGUAGES)) := by
  intro L
  induction L with
  | nil => rfl
  | cons e rest ih =>
    rw [langSplit, List.countP_cons]
    by_cases hc : detect_entry_language e ∉ ALLOWED_PUSH_LANGUAGES
    · rw [if_pos hc]
      simp [hc, ih]
    · rw [if_neg hc]
      by_cases hp : detect_entry_language e = p
      · rw [if_pos hp]
        simp [hc, ih]
      · rw [if_neg hp]
        simp [hc, ih]

theorem gateLoopAux_skipped_lang (cfg : CycleConfig) (seen : SeenMap)
    (nowUtc : ℚ) (source : String) :
    ∀ (entries : List Entry) (cyc : List String) (n : Nat),
      (gateLoopAux cfg seen nowUtc source entries cyc n).2.2.skipped_lang = 0 := by
  intro entries
  induction entries with
  | nil => intro cyc n; rfl
  | cons e rest ih =>
    intro cyc n
    rw [gateLoopAux]
    cases hg : gateClassify cfg seen cyc nowUtc e <;> simp only []
    case skipEmpty => exact ih cyc n
    case skipSeen => exact ih cyc n
    case skipCycleDup => exact ih cyc n
    case skipOld => exact ih cyc n
    case skipMajor => exact ih cyc n
    case accept =>
      by_cases hcap : cfg.maxItemsPerSource ≤ n + 1
      · rw [if_pos hcap]
      · rw [if_neg hcap]
        exact ih _ (n + 1)

theorem processSource_skipped_lang (cfg : CycleConfig) (seen : SeenMap)
    (nowUtc : ℚ) (cyc : List String) (source : String) (entries : List Entry) :
    (processSource cfg seen nowUtc cyc source entries).2.2.skipped_lang =
      entries.countP
        (fun x => decide (detect_entry_language x ∉ ALLOWED_PUSH_LANGUAGES)) := by
  unfold processSource
  dsimp only
  rw [gateLoopAux_skipped_lang, langSplit_count, Nat.zero_add]
  exact (List.perm_insertionSort _ entries).countP_eq _

/-! ### Routing characterizations -/

theorem routeLowAux_immediate (cfg : CycleConfig) (ts : ℤ) :
    ∀ (L : List Accepted) (st : CycleState),
      (routeLowAux cfg ts L st).2.1 = L.filter (fun a => isUrgent cfg a) := by
  intro L
  induction L with
  | nil => intro st; rfl
  | cons a rest ih =>
    intro st
    rw [routeLowAux, List.filter_cons]
    by_cases hu : isUrgent cfg a = true
    · rw [if_pos hu]
      simp only [hu, if_true]
      rw [ih]
    · rw [if_neg hu]
      simp only [Bool.not_eq_true] at hu
      simp only [hu, Bool.false_eq_true, if_false]
      rw [ih]

theorem routeLowAux_lowAdded (cfg : CycleConfig) (ts : ℤ) :
    ∀ (L : List Accepted) (st : CycleState),
      (routeLowAux cfg ts L st).2.2 =
        (L.filter (fun a => !(isUrgent cfg a))).map (fun a => mkBufferEntry a ts) := by
  intro L
  induction L with
  | nil => intro st; rfl
  | cons a rest ih =>
    intro st
    rw [routeLowAux, List.filter_cons]
    by_cases hu : isUrgent cfg a = true
    · rw [if_pos hu]
      simp only [hu, Bool.not_true, Bool.false_eq_true, if_false]
      rw [ih]
    · rw [if_neg hu]
      simp only [Bool.not_eq_true] at hu
      simp only [hu, Bool.not_false, if_true, List.map_cons]
      rw [ih]

theorem nightAux_added_sub (ts : ℤ) :
    ∀ (L : List Accepted) (st : CycleState) (uids : List String)
      (b : BufferEntry), b ∈ (nightAux ts L st uids).2 →
      ∃ a, a ∈ L ∧ b = mkBufferEntry a ts := by
  intro L
  induction L with
  | nil =>
    intro st uids b h
    simp [nightAux] at h
  | cons a rest ih =>
    intro st uids b h
    rw [nightAux] at h
    by_cases hm : a.uid ∈ uids
    · rw [if_pos hm] at h
      obtain ⟨x, hx, hb⟩ := ih st uids b h
      exact ⟨x, List.mem_cons_of_mem _ hx, hb⟩
    · rw [if_neg hm] at h
      rcases List.mem_cons.mp h with h' | h'
      · exact ⟨a, List.mem_cons_self _ _, h'⟩
      · obtain ⟨x, hx, hb⟩ := ih _ _ b h'
        exact ⟨x, List.mem_cons_of_mem _ hx, hb⟩

theorem nightAux_added_uids_equiv (ts : ℤ) :
    ∀ (L : List Accepted) (st : CycleState) (uids₁ uids₂ : List String),
      (∀ u, u ∈ uids₁ ↔ u ∈ uids₂) →
      (nightAux ts L st uids₁).2 = (nightAux ts L st uids₂).2 := by
  intro L
  induction L with
  | nil => intro st u1 u2 _; rfl
  | cons a rest ih =>
    intro st u1 u2 hequiv
    rw [nightAux, nightAux]
    by_cases hm : a.uid ∈ u1
    · rw [if_pos hm, if_pos ((hequiv a.uid).mp hm)]
      exact ih st u1 u2 hequiv
    · rw [if_neg hm, if_neg (fun hc => hm ((hequiv a.uid).mpr hc))]
      dsimp only
      congr 1
      refine ih _ _ _ (fun u => ?_)
      constructor
      · intro hu
        rcases List.mem_cons.mp hu with h' | h'
        · exact h' ▸ List.mem_cons_self _ _
        · exact List.mem_cons_of_mem _ ((hequiv u).mp h')
      · intro hu
        rcases List.mem_cons.mp hu with h' | h'
        · exact h' ▸ List.mem_cons_self _ _
        · exact List.mem_cons_of_mem _ ((hequiv u).mpr h')

theorem nightAux_added_skip_uid (ts : ℤ) :
    ∀ (L : List Accepted) (st : CycleState) (uids : List String) (u : String),
      (∀ b ∈ L, b.uid ≠ u) →
      (nightAux ts L st (u :: uids)).2 = (nightAux ts L st uids).2 := by
  intro L
  induction L with
  | nil => intro st uids u _; rfl
  | cons a rest ih =>
    intro st uids u hne
    rw [nightAux, nightAux]
    have hau : a.uid ≠ u := hne a (List.mem_cons_self _ _)
    by_cases hm : a.uid ∈ uids
    · rw [if_pos (List.mem_cons_of_mem _ hm), if_pos hm]
      exact ih st uids u (fun b hb => hne b (List.mem_cons_of_mem _ hb))
    · have hm' : a.uid ∉ u :: uids := by
        intro hc
        rcases List.mem_cons.mp hc with h' | h'
        · exact hau h'
        · exact hm h'
      rw [if_neg hm', if_neg hm]
      dsimp only
      congr 1
      calc (nightAux ts rest _ (a.uid :: u :: uids)).2
          = (nightAux ts rest _ (u :: a.uid :: uids)).2 := by
            refine nightAux_added_uids_equiv ts rest _ _ _ (fun v => ?_)
            constructor
            · intro hv
              rcases List.mem_cons.mp hv with h' | h'
              · exact h' ▸ List.mem_cons_of_mem _ (List.mem_cons_self _ _)
              · rcases List.mem_cons.mp h' with h'' | h''
                · exact h'' ▸ List.mem_cons_self _ _
                · exact List.mem_cons_of_mem _ (List.mem_cons_of_mem _ h'')
            · intro hv
              rcases List.mem_cons.mp hv with h' | h'
              · exact h' ▸ List.mem_cons_of_mem _ (List.mem_cons_self _ _)
              · rcases List.mem_cons.mp h' with h'' | h''
                · exact h'' ▸ List.mem_cons_self _ _
                · exact List.mem_cons_of_mem _ (List.mem_cons_of_mem _ h'')
        _ = (nightAux ts rest _ (a.uid :: uids)).2 :=
            ih _ (a.uid :: uids) u (fun b hb => hne b (List.mem_cons_of_mem _ hb))

theorem nightAux_added_eq (ts : ℤ) :
    ∀ (L : List Accepted) (st : CycleState) (uids : List String),
      (L.map Accepted.uid).Nodup →
      (nightAux ts L st uids).2 =
        (L.filter (fun a => a.uid ∉ uids)).map (fun a => mkBufferEntry a ts) := by
  intro L
  induction L with
  | nil => intro st uids _; rfl
  | cons a rest ih =>
    intro st uids hnd
    have hnd' : (rest.map Accepted.uid).Nodup := (List.nodup_cons.mp hnd).2
    have hne : ∀ b ∈ rest, b.uid ≠ a.uid := by
      intro b hb hc
      exact (List.nodup_cons.mp hnd).1 (hc ▸ List.mem_map_of_mem Accepted.uid hb)
    rw [nightAux]
    by_cases hm : a.uid ∈ uids
    · rw [if_pos hm, ih st uids hnd', List.filter_cons]
      simp [hm]
    · rw [if_neg hm]
      dsimp only
      rw [nightAux_added_skip_uid ts rest _ uids a.uid hne, ih _ uids hnd',
        List.filter_cons]
      simp [hm]

theorem routeLowAux_night_buffer (cfg : CycleConfig) (ts : ℤ) :
    ∀ (L : List Accepted) (st : CycleState),
      (routeLowAux cfg ts L st).1.night_buffer = st.night_buffer := by
  intro L
  induction L with
  | nil => intro st; rfl
  | cons a rest ih =>
    intro st
    rw [routeLowAux]
    by_cases hu : isUrgent cfg a = true
    · rw [if_pos hu]
      exact ih st
    · rw [if_neg hu]
      exact ih _

/-- Every routed element originates from the gate-accepted list: immediate
candidates are accepted items, and every appended buffer entry is the
buffer record of an accepted item. -/
theorem routeBuckets_entry_sources (cfg : CycleConfig) (quietNow : Bool)
    (ts : ℤ) (allNew : List Accepted) (st : CycleState) :
    (∀ x ∈ (routeBuckets cfg quietNow ts allNew st).immediate, x ∈ allNew) ∧
    (∀ b ∈ (routeBuckets cfg quietNow ts allNew st).nightAdded,
      ∃ a, a ∈ allNew ∧ b = mkBufferEntry a ts) ∧
    (∀ b ∈ (routeBuckets cfg quietNow ts allNew st).lowAdded,
      ∃ a, a ∈ allNew ∧ b = mkBufferEntry a ts) := by
  unfold routeBuckets
  by_cases hq : (quietNow && !(routeLowAux cfg ts allNew st).2.1.isEmpty) = true
  · rw [if_pos hq]
    refine ⟨fun x hx => absurd hx (List.not_mem_nil x), fun b hb => ?_, fun b hb => ?_⟩
    · obtain ⟨a, ha, hba⟩ := nightAux_added_sub ts _ _ _ b hb
      rw [routeLowAux_immediate] at ha
      exact ⟨a, (List.mem_filter.mp ha).1, hba⟩
    · rw [routeLowAux_lowAdded] at hb
      obtain ⟨a, ha, hba⟩ := List.mem_map.mp hb
      exact ⟨a, (List.mem_filter.mp ha).1, hba.symm⟩
  · rw [if_neg hq]
    refine ⟨fun x hx => ?_, fun b hb => absurd hb (List.not_mem_nil b), fun b hb => ?_⟩
    · rw [routeLowAux_immediate] at hx
      exact (List.mem_filter.mp hx).1
    · rw [routeLowAux_lowAdded] at hb
      obtain ⟨a, ha, hba⟩ := List.mem_map.mp hb
      exact ⟨a, (List.mem_filter.mp ha).1, hba.symm⟩

/-! ### C1: idempotent dedup -/

/-- C1 (confirmed): an entry whose identifier is still a key of the
TTL-pruned seen-set is skipped by the gate (never accepted, and counted as
a seen-skip when the identifier is non-empty), and the cycle adds no
immediate-delivery candidate, no night-buffer entry and no low-buffer entry
for that identifier.  Deliveries in the same cycle of buffer entries queued
by earlier observations of the identifier are digest flushes of the older
arrival, not effects of the re-processed item. -/
theorem seen_identifier_skipped_no_insertions (cfg : CycleConfig)
    (rawSeen : SeenMap) (ttl nowTs : ℤ) (cyc cyc0 : List String) (nowUtc : ℚ)
    (quietNow : Bool) (ts : ℤ) (sources : List (String × List Entry))
    (st : CycleState) (e : Entry)
    (hst : st.seen = prune_seen rawSeen ttl nowTs)
    (hpruned : entry_uid e ∈ seenKeys (prune_seen rawSeen ttl nowTs)) :
    gateClassify cfg st.seen cyc nowUtc e ≠ GateOutcome.accept ∧
    (entry_uid e ≠ "" → gateClassify cfg st.seen cyc nowUtc e = GateOutcome.skipSeen) ∧
    entry_uid e ∉ (routeBuckets cfg quietNow ts
      (processAllSources cfg st.seen nowUtc sources cyc0).1 st).immediate.map Accepted.uid ∧
    entry_uid e ∉ (routeBuckets cfg quietNow ts
      (processAllSources cfg st.seen nowUtc sources cyc0).1 st).nightAdded.map BufferEntry.uid ∧
    entry_uid e ∉ (routeBuckets cfg quietNow ts
      (processAllSources cfg st.seen nowUtc sources cyc0).1 st).lowAdded.map BufferEntry.uid := by
  have hmem : entry_uid e ∈ seenKeys st.seen := by
    rw [hst]
    exact hpruned
  have hsrc := routeBuckets_entry_sources cfg quietNow ts
    (processAllSources cfg st.seen nowUtc sources cyc0).1 st
  have hnot : ∀ a ∈ (processAllSources cfg st.seen nowUtc sources cyc0).1,
      a.uid ≠ entry_uid e := by
    intro a ha hc
    exact (mem_processAllSources cfg st.seen nowUtc sources cyc0 a ha).1 (hc ▸ hmem)
  refine ⟨fun hacc => gateClassify_accept_not_seen cfg st.seen cyc nowUtc e hacc hmem,
    fun hne => gateClassify_seen_skips cfg st.seen cyc nowUtc e hmem hne, ?_, ?_, ?_⟩
  · intro hc
    obtain ⟨x, hx, hxe⟩ := List.mem_map.mp hc
    exact hnot x (hsrc.1 x hx) hxe
  · intro hc
    obtain ⟨b, hb, hbe⟩ := List.mem_map.mp hc
    obtain ⟨a, ha, hba⟩ := hsrc.2.1 b hb
    exact hnot a ha (by rw [← hbe, hba]; rfl)
  · intro hc
    obtain ⟨b, hb, hbe⟩ := List.mem_map.mp hc
    obtain ⟨a, ha, hba⟩ := hsrc.2.2 b hb
    exact hnot a ha (by rw [← hbe, hba]; rfl)

/-- Witness for C1: an entry whose identifier sits in the pruned seen-set
is classified as a seen-skip. -/
theorem seen_identifier_skipped_no_insertions_witness :
    gateClassify ⟨3, 24, 5, false, [], [], []⟩
      (⟨[("u1", 100)], [], [], "", ""⟩ : CycleState).seen [] 0
      ⟨"u1", "t", "", some 0, ""⟩ = GateOutcome.skipSeen :=
  (seen_identifier_skipped_no_insertions ⟨3, 24, 5, false, [], [], []⟩
    [("u1", 100)] 72 100 [] [] 0 false 0 [] ⟨[("u1", 100)], [], [], "", ""⟩
    ⟨"u1", "t", "", some 0, ""⟩ (by decide) (by decide)).2.1 (by decide)

/-! ### C2: bucket exclusivity -/

/-- C2 (corrected): for gate-accepted items (whose identifiers are pairwise
distinct by construction of the cycle-claimed set) the three outcomes -
immediate candidate, night-buffer append, low-buffer append - are pairwise
exclusive, and exactly one of them holds unless the cycle is inside quiet
hours, the item is urgent, and its identifier is already queued in the
pre-existing night buffer; in that corner case the item is dropped by the
night-buffer duplicate skip and lands in no bucket at all. -/
theorem route_buckets_exclusive (cfg : CycleConfig) (quietNow : Bool) (ts : ℤ)
    (allNew : List Accepted) (st : CycleState) (a : Accepted)
    (hnd : (allNew.map Accepted.uid).Nodup) (ha : a ∈ allNew) :
    (¬(a.uid ∈ (routeBuckets cfg quietNow ts allNew st).immediate.map Accepted.uid ∧
       a.uid ∈ (routeBuckets cfg quietNow ts allNew st).nightAdded.map BufferEntry.uid) ∧
     ¬(a.uid ∈ (routeBuckets cfg quietNow ts allNew st).immediate.map Accepted.uid ∧
       a.uid ∈ (routeBuckets cfg quietNow ts allNew st).lowAdded.map BufferEntry.uid) ∧
     ¬(a.uid ∈ (routeBuckets cfg quietNow ts allNew st).nightAdded.map BufferEntry.uid ∧
       a.uid ∈ (routeBuckets cfg quietNow ts allNew st).lowAdded.map BufferEntry.uid)) ∧
    (¬(quietNow = true ∧ isUrgent cfg a = true ∧
        a.uid ∈ nightBufferUids st.night_buffer) →
      (a.uid ∈ (routeBuckets cfg quietNow ts allNew st).immediate.map Accepted.uid ∨
       a.uid ∈ (routeBuckets cfg quietNow ts allNew st).nightAdded.map BufferEntry.uid ∨
       a.uid ∈ (routeBuckets cfg quietNow ts allNew st).lowAdded.map BufferEntry.uid)) := by
  have hinj : ∀ x ∈ allNew, ∀ y ∈ allNew, x.uid = y.uid → x = y :=
    List.inj_on_of_nodup_map hnd
  have hLow := routeLowAux_lowAdded cfg ts allNew st
  have hImm := routeLowAux_immediate cfg ts allNew st
  have hlow_mem : ∀ u, u ∈ ((allNew.filter (fun x => !(isUrgent cfg x))).map
      (fun x => mkBufferEntry x ts)).map BufferEntry.uid →
      ∃ x ∈ allNew, isUrgent cfg x = false ∧ x.uid = u := by
    intro u hu
    obtain ⟨b, hb, hbu⟩ := List.mem_map.mp hu
    obtain ⟨x, hx, hxb⟩ := List.mem_map.mp hb
    obtain ⟨hx1, hx2⟩ := List.mem_filter.mp hx
    refine ⟨x, hx1, by simpa using hx2, ?_⟩
    rw [← hbu, ← hxb]
    rfl
  have hlow_in : isUrgent cfg a = false →
      a.uid ∈ ((allNew.filter (fun x => !(isUrgent cfg x))).map
        (fun x => mkBufferEntry x ts)).map BufferEntry.uid := by
    intro hu
    refine List.mem_map.mpr ⟨mkBufferEntry a ts, List.mem_map.mpr ⟨a, ?_, rfl⟩, rfl⟩
    exact List.mem_filter.mpr ⟨ha, by simp [hu]⟩
  unfold routeBuckets
  by_cases hq : (quietNow && !(routeLowAux cfg ts allNew st).2.1.isEmpty) = true
  · have hquiet : quietNow = true := by
      cases quietNow
      · simp at hq
      · rfl
    have hndimm : ((allNew.filter (fun x => isUrgent cfg x)).map Accepted.uid).Nodup :=
      List.Nodup.sublist (List.Sublist.map Accepted.uid (List.filter_sublist allNew)) hnd
    rw [if_pos hq]
    dsimp only
    rw [hLow, hImm, routeLowAux_night_buffer cfg ts allNew st,
      nightAux_added_eq ts _ _ _ hndimm]
    have hnight_mem : ∀ u, u ∈ (((allNew.filter (fun x => isUrgent cfg x)).filter
        (fun x => x.uid ∉ nightBufferUids st.night_buffer)).map
        (fun x => mkBufferEntry x ts)).map BufferEntry.uid →
        ∃ x ∈ allNew, isUrgent cfg x = true ∧
          x.uid ∉ nightBufferUids st.night_buffer ∧ x.uid = u := by
      intro u hu
      obtain ⟨b, hb, hbu⟩ := List.mem_map.mp hu
      obtain ⟨x, hx, hxb⟩ := List.mem_map.mp hb
      obtain ⟨hx1, hx2⟩ := List.mem_filter.mp hx
      obtain ⟨hx3, hx4⟩ := List.mem_filter.mp hx1
      refine ⟨x, hx3, hx4, by simpa using hx2, ?_⟩
      rw [← hbu, ← hxb]
      rfl
    refine ⟨⟨fun hc => absurd hc.1 (by simp), fun hc => absurd hc.1 (by simp),
      fun hc => ?_⟩, fun hskip => ?_⟩
    · obtain ⟨x, hx, hxu, -, hxa⟩ := hnight_mem a.uid hc.1
      obtain ⟨y, hy, hyu, hya⟩ := hlow_mem a.uid hc.2
      have hxy : x = y := hinj x hx y hy (by rw [hxa, hya])
      rw [hxy, hyu] at hxu
      exact absurd hxu (by simp)
    · by_cases hu : isUrgent cfg a = true
      · have hnb : a.uid ∉ nightBufferUids st.night_buffer := by
          intro hc
          exact hskip ⟨hquiet, hu, hc⟩
        refine Or.inr (Or.inl ?_)
        refine List.mem_map.mpr ⟨mkBufferEntry a ts, List.mem_map.mpr ⟨a, ?_, rfl⟩, rfl⟩
        exact List.mem_filter.mpr ⟨List.mem_filter.mpr ⟨ha, hu⟩, by simpa using hnb⟩
      · exact Or.inr (Or.inr (hlow_in (by simpa using hu)))
  · rw [if_neg hq]
    dsimp only
    rw [hLow, hImm]
    have himm_mem : ∀ u, u ∈ (allNew.filter (fun x => isUrgent cfg x)).map Accepted.uid →
        ∃ x ∈ allNew, isUrgent cfg x = true ∧ x.uid = u := by
      intro u hu
      obtain ⟨x, hx, hxu⟩ := List.mem_map.mp hu
      obtain ⟨hx1, hx2⟩ := List.mem_filter.mp hx
      exact ⟨x, hx1, hx2, hxu⟩
    refine ⟨⟨fun hc => absurd hc.2 (by simp), fun hc => ?_,
      fun hc => absurd hc.1 (by simp)⟩, fun _ => ?_⟩
    · obtain ⟨x, hx, hxu, hxa⟩ := himm_mem a.uid hc.1
      obtain ⟨y, hy, hyu, hya⟩ := hlow_mem a.uid hc.2
      have hxy : x = y := hinj x hx y hy (by rw [hxa, hya])
      rw [hxy, hyu] at hxu
      exact absurd hxu (by simp)
    · by_cases hu : isUrgent cfg a = true
      · exact Or.inl (List.mem_map.mpr ⟨a, List.mem_filter.mpr ⟨ha, hu⟩, rfl⟩)
      · exact Or.inr (Or.inr (hlow_in (by simpa using hu)))

/-- Counterexample to C2 as stated: inside quiet hours, a gate-accepted
urgent item whose identifier is already queued in the night buffer ends in
none of the three buckets - it is not an immediate candidate (quiet hours
cleared the list), not appended to the night buffer (duplicate skip), and
not appended to the low buffer (it was urgent). -/
theorem route_exactly_one_claim_cex :
    (processSource dupNightConfig [] 0 [] "S" [dupNightEntry]).1 =
      [dupNightAccepted] ∧
    (routeBuckets dupNightConfig true 0 [dupNightAccepted] dupNightState).immediate = [] ∧
    (routeBuckets dupNightConfig true 0 [dupNightAccepted] dupNightState).nightAdded = [] ∧
    (routeBuckets dupNightConfig true 0 [dupNightAccepted] dupNightState).lowAdded = [] := by
  have hage : ¬((24 : ℚ) < ageHours 0 0) := by norm_num [ageHours]
  have hdet : detect_topic SUMMARY_TOPIC_RULES "Missile strike hits city" =
      warTopicLabel := by decide
  have huid : entry_uid ⟨"u1", "Missile strike hits city", "", some 0, ""⟩ = "u1" := by
    decide
  have hacc : gateClassify ⟨3, 24, 5, false, [], SUMMARY_TOPIC_RULES, DEFAULT_IRAN_KEYWORDS⟩
      [] [] 0 ⟨"u1", "Missile strike hits city", "", some 0, ""⟩ =
      GateOutcome.accept := by
    simp +decide [gateClassify, hage, huid, seenKeys]
  refine ⟨?_, ?_, ?_, ?_⟩
  · simp +decide [processSource, gateInputOf, langSplit, sortByPublishedDesc,
      List.insertionSort, sourceLangPref, xinhuaSource, ALLOWED_PUSH_LANGUAGES,
      gateLoopAux, hacc, hdet, huid, dupNightConfig, dupNightAccepted,
      dupNightEntry, detect_entry_language]
  · simp +decide [routeBuckets, routeLowAux, nightAux, isUrgent, nightBufferUids,
      dupNightAccepted, dupNightState, mkBufferEntry]
  · simp +decide [routeBuckets, routeLowAux, nightAux, isUrgent, nightBufferUids,
      dupNightAccepted, dupNightState, mkBufferEntry]
  · simp +decide [routeBuckets, routeLowAux, nightAux, isUrgent, nightBufferUids,
      dupNightAccepted, dupNightState, mkBufferEntry]

/-- Witness for C2's amended exclusivity: outside quiet hours an urgent
accepted item remains an immediate candidate. -/
theorem route_buckets_exclusive_witness :
    "u1" ∈ (routeBuckets ⟨3, 24, 5, false, [], [], []⟩ false 0
        [⟨"S", ⟨"u1", "t", "", none, ""⟩, "u1", 6, "other", true⟩]
        ⟨[], [], [], "", ""⟩).immediate.map Accepted.uid ∨
    "u1" ∈ (routeBuckets ⟨3, 24, 5, false, [], [], []⟩ false 0
        [⟨"S", ⟨"u1", "t", "", none, ""⟩, "u1", 6, "other", true⟩]
        ⟨[], [], [], "", ""⟩).nightAdded.map BufferEntry.uid ∨
    "u1" ∈ (routeBuckets ⟨3, 24, 5, false, [], [], []⟩ false 0
        [⟨"S", ⟨"u1", "t", "", none, ""⟩, "u1", 6, "other", true⟩]
        ⟨[], [], [], "", ""⟩).lowAdded.map BufferEntry.uid :=
  (route_buckets_exclusive ⟨3, 24, 5, false, [], [], []⟩ false 0
    [⟨"S", ⟨"u1", "t", "", none, ""⟩, "u1", 6, "other", true⟩]
    ⟨[], [], [], "", ""⟩ ⟨"S", ⟨"u1", "t", "", none, ""⟩, "u1", 6, "other", true⟩
    (by simp) (by simp)).2 (by simp)

/-! ### C10: language filtering happens before the gate -/

/-- C10 (confirmed): an entry of detected language `other` never reaches
the gate loop (it is dropped by the language pre-pass, so the dedup, age
and major checks never see it), the cycle counts one `skipped_lang` per
fetched entry outside the allowed languages, and no such entry is ever an
immediate candidate or appended to the night or low buffer. -/
theorem other_language_entry_skipped (cfg : CycleConfig) (seen : SeenMap)
    (nowUtc : ℚ) (quietNow : Bool) (ts : ℤ) (st : CycleState)
    (sources : List (String × List Entry)) (cyc0 cyc1 : List String)
    (source : String) (entries : List Entry) (e : Entry)
    (hlang : detect_entry_language e = "other") :
    e ∉ gateInputOf source entries ∧
    (processSource cfg seen nowUtc cyc1 source entries).2.2.skipped_lang =
      entries.countP
        (fun x => decide (detect_entry_language x ∉ ALLOWED_PUSH_LANGUAGES)) ∧
    (∀ x ∈ (routeBuckets cfg quietNow ts
        (processAllSources cfg seen nowUtc sources cyc0).1 st).immediate,
      x.entry ≠ e) ∧
    (∀ b ∈ (routeBuckets cfg quietNow ts
        (processAllSources cfg seen nowUtc sources cyc0).1 st).nightAdded,
      b.entry ≠ e) ∧
    (∀ b ∈ (routeBuckets cfg quietNow ts
        (processAllSources cfg seen nowUtc sources cyc0).1 st).lowAdded,
      b.entry ≠ e) := by
  have hnotallow : detect_entry_language e ∉ ALLOWED_PUSH_LANGUAGES := by
    rw [hlang]
    decide
  have hsrc := routeBuckets_entry_sources cfg quietNow ts
    (processAllSources cfg seen nowUtc sources cyc0).1 st
  have hallNew : ∀ a ∈ (processAllSources cfg seen nowUtc sources cyc0).1,
      a.entry ≠ e := by
    intro a ha hc
    exact hnotallow (hc ▸ (mem_processAllSources cfg seen nowUtc sources cyc0 a ha).2)
  refine ⟨fun h => hnotallow (mem_gateInputOf source entries e h),
    processSource_skipped_lang cfg seen nowUtc cyc1 source entries,
    fun x hx => hallNew x (hsrc.1 x hx), fun b hb => ?_, fun b hb => ?_⟩
  · obtain ⟨a, ha, hba⟩ := hsrc.2.1 b hb
    rw [hba]
    exact hallNew a ha
  · obtain ⟨a, ha, hba⟩ := hsrc.2.2 b hb
    rw [hba]
    exact hallNew a ha

/-- Witness for C10: a digits-only title is dropped by the language
pre-pass of its source. -/
theorem other_language_entry_skipped_witness :
    (⟨"u9", "123 456", "", some 0, ""⟩ : Entry) ∉
      gateInputOf "S" [⟨"u9", "123 456", "", some 0, ""⟩] :=
  (other_language_entry_skipped ⟨3, 24, 5, false, [], [], []⟩ [] 0 false 0
    ⟨[], [], [], "", ""⟩ [] [] [] "S" [⟨"u9", "123 456", "", some 0, ""⟩]
    ⟨"u9", "123 456", "", some 0, ""⟩ (by decide)).1

end NewsNotifier
